import Mathlib

/-!
Verification development for `ultrasonic_mapping.py`: a single-sensor
threshold monitor.  The file embeds the two drivers of the program —
`gather_readings` (batch rounds) and the continuous loop of `main` —
together with the `plot_data` export helper, and proves the specified
properties about them.

Distances are floating-point in the program; every operation the program
performs on them (comparison with 0 and with the warning threshold,
`max(_, 0)`, list append) is exact, so they are modelled as rationals.
-/

namespace Ultrasonic

/-- `WARNING_DISTANCE = 10.0` (line 18). -/
def WARNING_DISTANCE : ℚ := 10

/-- `NUM_READINGS = 90` (line 21): default number of measurements per batch. -/
def NUM_READINGS : ℕ := 90

/-- Classification of one raw sample inside `gather_readings` (lines 37-43):
a timeout (`None`) yields `dist_val = 0.0` and is reported as invalid
(the `"None (timeout)"` print); a numeric reading `d` yields
`max(d, 0)` and is reported as a valid reading.  The boolean records
which branch was taken (the validity of the reading). -/
def classify (dist : Option ℚ) : ℚ × Bool :=
  match dist with
  | none => (0, false)
  | some d => (max d 0, true)

/-- The distance value stored for a raw sample (first component of `classify`). -/
def dist_val (dist : Option ℚ) : ℚ :=
  (classify dist).1

/-- The alert guard `0 < dist_val < WARNING_DISTANCE`, the identical
expression at line 50 (batch driver) and line 116 (continuous driver). -/
def alertFires (v : ℚ) : Bool :=
  decide (0 < v) && decide (v < WARNING_DISTANCE)

/-- `gather_readings` (lines 28-59): the loop `for i in range(1, num_readings + 1)`
reads sample `i`, classifies it, and appends `(i, dist_val)` to `data`,
which starts empty and is returned.  `sensor i` is the value returned by
`sensor.read()` on iteration `i`. -/
def gather_readings (sensor : ℕ → Option ℚ) (num_readings : ℕ) : List (ℕ × ℚ) :=
  (List.range' 1 num_readings).map (fun i => (i, dist_val (sensor i)))

/-- `plot_data` line 66: `indices = [d[0] for d in data]`. -/
def plot_indices (data : List (ℕ × ℚ)) : List ℕ :=
  data.map Prod.fst

/-- `plot_data` line 67: `distances = [d[1] for d in data]`. -/
def plot_distances (data : List (ℕ × ℚ)) : List ℚ :=
  data.map Prod.snd

/-- A zero-padded two-digit decimal field of `strftime` (the last two
decimal digits of `n`; for the in-range field values the program meets,
`n < 100`, this is exactly the zero-padded rendering of `n`). -/
def pad2 (n : ℕ) : String :=
  String.mk [Nat.digitChar (n / 10 % 10), Nat.digitChar (n % 10)]

/-- The four-digit `%Y` field of `strftime` (last four decimal digits of
the year; exact for years 1000-9999). -/
def pad4 (n : ℕ) : String :=
  String.mk [Nat.digitChar (n / 1000 % 10), Nat.digitChar (n / 100 % 10),
    Nat.digitChar (n / 10 % 10), Nat.digitChar (n % 10)]

/-- `time.strftime("%Y%m%d_%H%M")` (line 78), as a function of the broken-down
collection time: four year digits, two month digits, two day digits, an
underscore, two hour digits, two minute digits. -/
def timestamp_str (y mo d h mi : ℕ) : String :=
  pad4 y ++ pad2 mo ++ pad2 d ++ "_" ++ pad2 h ++ pad2 mi

/-- Line 79: `filename = f"round_\x7bround_number\x7d_\x7btimestamp\x7d.png"`. -/
def plot_filename (round_number : ℕ) (timestamp : String) : String :=
  "round_" ++ toString round_number ++ "_" ++ timestamp ++ ".png"

/-- The mutable state of the continuous driver `main` (lines 90-127):
the tick counter `i` and the two parallel window lists. -/
structure ContState where
  i : ℕ
  distances : List ℚ
  indices : List ℕ
  deriving Repr, DecidableEq

/-- The state of `main` when the loop is entered (lines 90-100). -/
def contInit : ContState :=
  ⟨0, [], []⟩

/-- The exception raised at line 105 when `dist` is `None`:
`int(dist // 2)` applies `//` to `NoneType`. -/
def contTypeError : String :=
  "TypeError: unsupported operand type for //: NoneType and int"

/-- One iteration of the `while True` loop of `main` (lines 101-140).
Line 105 computes `int(dist // 2)` BEFORE the `None` check of line 109,
so a timeout raises `TypeError` there and the `None` branch of
lines 109-111 (which would set `dist_val = 0.0`) is unreachable; the
tick is therefore modelled as failing on `None`.  On a numeric sample
`d`, `dist_val = d` (line 113, no clamping), the alert guard of line 116
is evaluated (a sound side effect only), `dist_val` and `i + 1` are
appended to the two window lists (lines 120-121), and if
`len(distances) > 200` both lists drop their head (lines 125-127). -/
def contTick (dist : Option ℚ) (st : ContState) : Except String ContState :=
  match dist with
  | none => Except.error contTypeError
  | some d =>
      if (st.distances ++ [d]).length > 200 then
        Except.ok ⟨st.i + 1, (st.distances ++ [d]).tail, (st.indices ++ [st.i + 1]).tail⟩
      else
        Except.ok ⟨st.i + 1, st.distances ++ [d], st.indices ++ [st.i + 1]⟩

/-- Run the continuous driver over a finite prefix of the sensor stream. -/
def runCont (samples : List (Option ℚ)) (st : ContState) : Except String ContState :=
  match samples with
  | [] => Except.ok st
  | s :: rest =>
      match contTick s st with
      | Except.ok st2 => runCont rest st2
      | Except.error e => Except.error e

/-- The window operation of lines 120-127, abstracted over the entry type:
append to the tail, then drop the head once if the capacity is exceeded. -/
def windowPush (cap : ℕ) (w : List α) (x : α) : List α :=
  if (w ++ [x]).length > cap then (w ++ [x]).tail else w ++ [x]

/-- Iterated `windowPush`. -/
def windowPushAll (cap : ℕ) (w : List α) (xs : List α) : List α :=
  xs.foldl (windowPush cap) w

/-! ### Helper lemmas -/

lemma dist_val_nonneg (s : Option ℚ) : 0 ≤ dist_val s := by
  cases s with
  | none => simp [dist_val, classify]
  | some d => simp [dist_val, classify]

lemma windowPush_length_le {cap : ℕ} {w : List α} (h : w.length ≤ cap) (x : α) :
    (windowPush cap w x).length ≤ cap := by
  unfold windowPush
  split
  · rename_i hc
    simp only [List.length_tail, List.length_append, List.length_cons, List.length_nil] at *
    omega
  · rename_i hc
    simp only [List.length_append, List.length_cons, List.length_nil] at *
    omega

lemma windowPushAll_append (cap : ℕ) (w : List α) (xs : List α) (x : α) :
    windowPushAll cap w (xs ++ [x]) = windowPush cap (windowPushAll cap w xs) x := by
  simp [windowPushAll, List.foldl_append]

lemma windowPushAll_length_le {cap : ℕ} {w : List α} (h : w.length ≤ cap) (xs : List α) :
    (windowPushAll cap w xs).length ≤ cap := by
  induction xs generalizing w with
  | nil => simp only [windowPushAll, List.foldl_nil]; exact h
  | cons y ys ih =>
      have hstep : windowPushAll cap w (y :: ys) = windowPushAll cap (windowPush cap w y) ys := rfl
      rw [hstep]
      exact ih (windowPush_length_le h y)

lemma windowPushAll_nil_eq_drop (cap : ℕ) (L : List α) :
    windowPushAll cap [] L = L.drop (L.length - cap) := by
  induction L using List.reverseRecOn with
  | nil => simp [windowPushAll]
  | append_singleton M x ih =>
      rw [windowPushAll_append, ih]
      rcases Nat.lt_or_ge M.length cap with hM | hM
      · have h1 : M.length - cap = 0 := by omega
        have h2 : (M ++ [x]).length - cap = 0 := by
          simp only [List.length_append, List.length_cons, List.length_nil]
          omega
        rw [h1, h2, List.drop_zero, List.drop_zero]
        unfold windowPush
        rw [if_neg]
        simp only [List.length_append, List.length_cons, List.length_nil]
        omega
      · have hw : (M.drop (M.length - cap)).length = cap := by
          simp only [List.length_drop]
          omega
        unfold windowPush
        rw [if_pos (by simp only [List.length_append, hw, List.length_cons, List.length_nil]; omega)]
        rcases Nat.eq_zero_or_pos cap with hc0 | hc1
        · subst hc0
          have hnil : M.drop (M.length - 0) = [] := by
            simp
          rw [hnil]
          have h3 : (M ++ [x]).length - 0 = (M ++ [x]).length := by omega
          rw [h3, List.drop_length]
          rfl
        · have hne : M.drop (M.length - cap) ≠ [] := by
            intro hnil
            rw [hnil] at hw
            simp at hw
            omega
          obtain ⟨a, w2, hw2⟩ := List.exists_cons_of_ne_nil hne
          rw [hw2]
          have hidx : (M ++ [x]).length - cap = (M.length - cap) + 1 := by
            simp only [List.length_append, List.length_cons, List.length_nil]
            omega
          rw [hidx]
          have hle : M.length - cap + 1 ≤ M.length := by omega
          rw [List.drop_append_of_le_length hle]
          have htail : M.drop (M.length - cap + 1) = (M.drop (M.length - cap)).tail := by
            rw [List.tail_drop]
          rw [htail, hw2]
          rfl

lemma mem_windowPush {cap : ℕ} {w : List α} {x y : α}
    (h : y ∈ windowPush cap w x) : y ∈ w ∨ y = x := by
  unfold windowPush at h
  have hmem : y ∈ w ++ [x] := by
    split at h
    · exact List.tail_subset _ h
    · exact h
  rcases List.mem_append.mp hmem with h1 | h1
  · exact Or.inl h1
  · exact Or.inr (List.mem_singleton.mp h1)

lemma contTick_none_eq (st : ContState) : contTick none st = Except.error contTypeError := rfl

lemma contTick_some_distances {d : ℚ} {st st' : ContState}
    (h : contTick (some d) st = Except.ok st') :
    st'.distances = windowPush 200 st.distances d := by
  simp only [contTick] at h
  unfold windowPush
  split at h
  · rename_i hcond
    injection h with h2
    rw [← h2, if_pos hcond]
  · rename_i hcond
    injection h with h2
    rw [← h2, if_neg hcond]

lemma contTick_some_indices {d : ℚ} {st st' : ContState}
    (hlen : st.distances.length = st.indices.length)
    (h : contTick (some d) st = Except.ok st') :
    st'.indices = windowPush 200 st.indices (st.i + 1) := by
  simp only [contTick] at h
  unfold windowPush
  split at h
  · rename_i hcond
    injection h with h2
    rw [← h2, if_pos (by simp only [List.length_append, List.length_cons, List.length_nil] at hcond ⊢; omega)]
  · rename_i hcond
    injection h with h2
    rw [← h2, if_neg (by simp only [List.length_append, List.length_cons, List.length_nil] at hcond ⊢; omega)]

lemma contTick_some_isOk (d : ℚ) (st : ContState) :
    ∃ st2, contTick (some d) st = Except.ok st2 := by
  simp only [contTick]
  split
  · exact ⟨_, rfl⟩
  · exact ⟨_, rfl⟩

lemma contTick_length_eq {d : ℚ} {st st' : ContState}
    (hlen : st.distances.length = st.indices.length)
    (h : contTick (some d) st = Except.ok st') :
    st'.distances.length = st'.indices.length := by
  rw [contTick_some_distances h, contTick_some_indices hlen h]
  unfold windowPush
  by_cases hc : (st.distances ++ [d]).length > 200
  · rw [if_pos hc, if_pos (by simp only [List.length_append, List.length_cons, List.length_nil] at hc ⊢; omega)]
    simp only [List.length_tail, List.length_append, List.length_cons, List.length_nil]
    omega
  · rw [if_neg hc, if_neg (by simp only [List.length_append, List.length_cons, List.length_nil] at hc ⊢; omega)]
    simp only [List.length_append, List.length_cons, List.length_nil]
    omega

lemma runCont_length_eq {samples : List (Option ℚ)} {st st' : ContState}
    (hlen : st.distances.length = st.indices.length)
    (h : runCont samples st = Except.ok st') :
    st'.distances.length = st'.indices.length := by
  induction samples generalizing st with
  | nil =>
      unfold runCont at h
      injection h with h2
      rw [← h2]
      exact hlen
  | cons s rest ih =>
      unfold runCont at h
      cases s with
      | none =>
          rw [contTick_none_eq] at h
          exact absurd h (by simp)
      | some d =>
          obtain ⟨st2, hct⟩ := contTick_some_isOk d st
          rw [hct] at h
          exact ih (contTick_length_eq hlen hct) h

lemma runCont_distances_le {samples : List (Option ℚ)} {st st' : ContState}
    (hle : st.distances.length ≤ 200)
    (h : runCont samples st = Except.ok st') :
    st'.distances.length ≤ 200 := by
  induction samples generalizing st with
  | nil =>
      unfold runCont at h
      injection h with h2
      rw [← h2]
      exact hle
  | cons s rest ih =>
      unfold runCont at h
      cases s with
      | none =>
          rw [contTick_none_eq] at h
          exact absurd h (by simp)
      | some d =>
          obtain ⟨st2, hct⟩ := contTick_some_isOk d st
          rw [hct] at h
          have h2 : st2.distances.length ≤ 200 := by
            rw [contTick_some_distances hct]
            exact windowPush_length_le hle d
          exact ih h2 h

lemma runCont_nonneg {samples : List ℚ} {st st' : ContState}
    (hst : ∀ x ∈ st.distances, 0 ≤ x)
    (hs : ∀ x ∈ samples, 0 ≤ x)
    (h : runCont (samples.map some) st = Except.ok st') :
    ∀ x ∈ st'.distances, 0 ≤ x := by
  induction samples generalizing st with
  | nil =>
      unfold runCont at h
      simp only [List.map_nil] at h
      injection h with h2
      rw [← h2]
      exact hst
  | cons a rest ih =>
      simp only [List.map_cons] at h
      unfold runCont at h
      obtain ⟨st2, hct⟩ := contTick_some_isOk a st
      rw [hct] at h
      have hst2 : ∀ x ∈ st2.distances, 0 ≤ x := by
        intro x hx
        rw [contTick_some_distances hct] at hx
        rcases mem_windowPush hx with h1 | h1
        · exact hst x h1
        · rw [h1]
          exact hs a (List.mem_cons_self a rest)
      exact ih hst2 (fun x hx => hs x (List.mem_cons_of_mem a hx)) h

/-! ### Claim theorems -/

/-- C1: a sensor timeout raises no error in either driver.  This is TRUE for
the batch driver (`gather_readings` maps `None` to a `(i, 0.0)` entry and the
round completes with all its readings), but FALSE for the continuous driver:
`main` evaluates `int(dist // 2)` at line 105 before its `None` check at
line 109, so a timeout tick raises `TypeError` instead of completing with a
0.0 reading.  The theorem evaluates both drivers at the timeout input. -/
theorem C1_timeout_behavior (st : ContState) :
    contTick none st = Except.error contTypeError
    ∧ (∀ (sensor : ℕ → Option ℚ) (N : ℕ), (gather_readings sensor N).length = N)
    ∧ gather_readings (fun _ => none) 2 = [(1, 0), (2, 0)] := by
  refine ⟨rfl, ?_, rfl⟩
  intro sensor N
  simp [gather_readings]

/-- C2 counterexample: the claim says every stored `distance_cm` is
non-negative in either driver, but the continuous driver stores the raw
value unclamped (line 113): a tick with raw sample `-5` puts `-5` into the
window. -/
theorem C2_window_negative_counterexample :
    contTick (some (-5)) contInit = Except.ok ⟨1, [(-5 : ℚ)], [1]⟩
    ∧ ((-5 : ℚ) < 0)
    ∧ ¬ (∀ st', runCont [some (-5)] contInit = Except.ok st' →
          ∀ x ∈ st'.distances, 0 ≤ x) := by
  refine ⟨rfl, by norm_num, ?_⟩
  intro hall
  have hneg := hall ⟨1, [(-5 : ℚ)], [1]⟩ rfl (-5) (by simp)
  norm_num at hneg

/-- C2 (amended): every reading produced by the batch driver has a
non-negative `distance_cm` (it is clamped with `max(raw, 0)`); the
continuous driver stores the raw numeric value unclamped, so its window
entries are non-negative only when every numeric sample is non-negative. -/
theorem C2_nonneg_amended (sensor : ℕ → Option ℚ) (N : ℕ)
    (samples : List ℚ) (st : ContState)
    (hs : ∀ x ∈ samples, 0 ≤ x)
    (h : runCont (samples.map some) contInit = Except.ok st) :
    (∀ p ∈ gather_readings sensor N, 0 ≤ p.2)
    ∧ (∀ x ∈ st.distances, 0 ≤ x) := by
  constructor
  · intro p hp
    simp only [gather_readings, List.mem_map] at hp
    obtain ⟨i, _, hpe⟩ := hp
    rw [← hpe]
    exact dist_val_nonneg (sensor i)
  · exact runCont_nonneg (by simp [contInit]) hs h

/-- C2 witness: the amended claim at a concrete batch round and a concrete
continuous run. -/
theorem C2_nonneg_witness :
    (∀ x ∈ [(4 : ℚ), 1], 0 ≤ x)
    ∧ runCont ([(4 : ℚ), 1].map some) contInit = Except.ok ⟨2, [4, 1], [1, 2]⟩
    ∧ ((∀ p ∈ gather_readings (fun _ => some 3) 2, 0 ≤ p.2)
       ∧ (∀ x ∈ (ContState.mk 2 [4, 1] [1, 2]).distances, 0 ≤ x)) :=
  ⟨by decide, rfl, C2_nonneg_amended (fun _ => some 3) 2 [4, 1] ⟨2, [4, 1], [1, 2]⟩ (by decide) rfl⟩

/-- C3: the alert guard (line 50 of the batch driver, line 116 of the
continuous driver — the identical expression `0 < dist_val < WARNING_DISTANCE`)
fires exactly when the stored distance is strictly between 0 and the warning
threshold; in particular it does not fire at 0 (timeout/no object) nor at or
above the threshold. -/
theorem C3_alert_iff (v : ℚ) :
    (alertFires v = true ↔ (0 < v ∧ v < WARNING_DISTANCE))
    ∧ alertFires 0 = false
    ∧ alertFires WARNING_DISTANCE = false := by
  refine ⟨?_, by decide, by decide⟩
  simp [alertFires]

/-- C4: the rolling window of the continuous driver (capacity 200) never
exceeds its capacity after any push, and after pushing `200 + k` readings it
holds exactly the last 200 of them in original order (FIFO eviction); each
successful tick updates both window lists by exactly this push operation. -/
theorem C4_window_fifo (L : List (ℕ × ℚ)) (k : ℕ) (hL : L.length = 200 + k) :
    (∀ n : ℕ, (windowPushAll 200 [] (L.take n)).length ≤ 200)
    ∧ windowPushAll 200 [] L = L.drop k
    ∧ (∀ (d : ℚ) (st st' : ContState),
        st.distances.length = st.indices.length →
        contTick (some d) st = Except.ok st' →
        st'.distances = windowPush 200 st.distances d
        ∧ st'.indices = windowPush 200 st.indices (st.i + 1))
    ∧ (∀ (samples : List (Option ℚ)) (st' : ContState),
        runCont samples contInit = Except.ok st' → st'.distances.length ≤ 200) := by
  refine ⟨?_, ?_, ?_, ?_⟩
  · intro n
    exact windowPushAll_length_le (by simp) _
  · have hk : L.length - 200 = k := by omega
    rw [windowPushAll_nil_eq_drop, hk]
  · intro d st st' hlen hct
    exact ⟨contTick_some_distances hct, contTick_some_indices hlen hct⟩
  · intro samples st' h
    exact runCont_distances_le (by simp [contInit]) h

/-- C4 witness: the window claim at a concrete list of 201 readings. -/
theorem C4_window_fifo_witness :
    ((List.range 201).map (fun j => (j, (0 : ℚ)))).length = 200 + 1
    ∧ ((∀ n : ℕ, (windowPushAll 200 [] (((List.range 201).map (fun j => (j, (0 : ℚ)))).take n)).length ≤ 200)
       ∧ windowPushAll 200 [] ((List.range 201).map (fun j => (j, (0 : ℚ))))
           = ((List.range 201).map (fun j => (j, (0 : ℚ)))).drop 1
       ∧ (∀ (d : ℚ) (st st' : ContState),
           st.distances.length = st.indices.length →
           contTick (some d) st = Except.ok st' →
           st'.distances = windowPush 200 st.distances d
           ∧ st'.indices = windowPush 200 st.indices (st.i + 1))
       ∧ (∀ (samples : List (Option ℚ)) (st' : ContState),
           runCont samples contInit = Except.ok st' → st'.distances.length ≤ 200)) :=
  ⟨by simp, C4_window_fifo _ 1 (by simp)⟩

/-- C5: classification of one raw sample in the batch driver: a numeric
sample `r` yields the clamped distance `max r 0` and a valid reading
(negative noise is clamped to 0, non-negative values pass through
unchanged); a timeout yields distance 0.0 and an invalid reading. -/
theorem C5_classification (r : ℚ) :
    classify (some r) = (max r 0, true)
    ∧ classify none = ((0 : ℚ), false)
    ∧ (r < 0 → dist_val (some r) = 0)
    ∧ (0 ≤ r → dist_val (some r) = r) := by
  refine ⟨rfl, rfl, ?_, ?_⟩
  · intro hr
    simp [dist_val, classify, max_eq_right hr.le]
  · intro hr
    simp [dist_val, classify, max_eq_left hr]

/-- C5 witness: classification at the concrete raw samples `-3` and `4`. -/
theorem C5_classification_witness :
    ((-3 : ℚ) < 0 ∧ (0 : ℚ) ≤ 4)
    ∧ (classify (some (-3)) = (max (-3) 0, true)
       ∧ classify none = ((0 : ℚ), false)
       ∧ dist_val (some (-3 : ℚ)) = 0
       ∧ dist_val (some (4 : ℚ)) = 4) := by
  refine ⟨⟨by norm_num, by norm_num⟩, rfl, rfl, ?_, ?_⟩
  · exact (C5_classification (-3)).2.2.1 (by norm_num)
  · exact (C5_classification 4).2.2.2 (by norm_num)

/-- C6: a round of the batch driver contains exactly `num_readings` entries —
never fewer, never more — and entry `j` (0-based) is the classified reading
of this round's sample `j + 1`; each call of `gather_readings` starts from
the empty list, so the next round begins empty. -/
theorem C6_round_exact (sensor : ℕ → Option ℚ) (N : ℕ) (_hN : 1 ≤ N) :
    (gather_readings sensor N).length = N
    ∧ (∀ j : ℕ, j < N →
        (gather_readings sensor N)[j]? = some (j + 1, dist_val (sensor (j + 1)))) := by
  constructor
  · simp [gather_readings]
  · intro j hj
    simp [gather_readings, List.getElem?_map, List.getElem?_range', hj, Nat.add_comm 1 j]

/-- C6 witness: a concrete round of size 2. -/
theorem C6_round_exact_witness :
    1 ≤ 2
    ∧ ((gather_readings (fun _ => (none : Option ℚ)) 2).length = 2
       ∧ (∀ j : ℕ, j < 2 →
           (gather_readings (fun _ => (none : Option ℚ)) 2)[j]? = some (j + 1, dist_val none))) :=
  ⟨by decide, C6_round_exact (fun _ => none) 2 (by decide)⟩

/-- C7: round-trip through export.  `plot_data` extracts the index column and
the distance column of the round; zipping them back gives exactly the round
data — same entries, same order, unchanged distances — and the columns are
the indices `1..N` and the classified distances of samples `1..N`. -/
theorem C7_roundtrip (sensor : ℕ → Option ℚ) (N : ℕ) :
    (plot_indices (gather_readings sensor N)).zip (plot_distances (gather_readings sensor N))
        = gather_readings sensor N
    ∧ plot_indices (gather_readings sensor N) = List.range' 1 N
    ∧ plot_distances (gather_readings sensor N)
        = (List.range' 1 N).map (fun i => dist_val (sensor i)) := by
  refine ⟨?_, ?_, ?_⟩
  · simp [plot_indices, plot_distances, List.zip_map']
  · simp [plot_indices, gather_readings, List.map_map, Function.comp_def]
  · simp [plot_distances, gather_readings, List.map_map, Function.comp_def]

/-- C8: the exported artifact's filename is
`round_<R>_<YYYYMMDD_HHMM>.png`: the literal prefix `round_`, the round
number, an underscore, eight date digits, an underscore, four time digits,
and the extension; the timestamp part is 13 characters long. -/
theorem C8_filename_format (r y mo d h mi : ℕ) :
    (plot_filename r (timestamp_str y mo d h mi)).data
      = "round_".data ++ (toString r).data ++ "_".data
        ++ [Nat.digitChar (y / 1000 % 10), Nat.digitChar (y / 100 % 10),
            Nat.digitChar (y / 10 % 10), Nat.digitChar (y % 10),
            Nat.digitChar (mo / 10 % 10), Nat.digitChar (mo % 10),
            Nat.digitChar (d / 10 % 10), Nat.digitChar (d % 10)]
        ++ "_".data
        ++ [Nat.digitChar (h / 10 % 10), Nat.digitChar (h % 10),
            Nat.digitChar (mi / 10 % 10), Nat.digitChar (mi % 10)]
        ++ ".png".data
    ∧ (timestamp_str y mo d h mi).length = 13 := by
  constructor
  · simp [plot_filename, timestamp_str, pad4, pad2, String.data_append]
  · rfl

/-- C9: the two parallel window lists of the continuous driver have equal
length after every run of ticks: each successful tick appends to both and
evicts from both. -/
theorem C9_parallel_lengths (samples : List (Option ℚ)) (st : ContState)
    (h : runCont samples contInit = Except.ok st) :
    st.distances.length = st.indices.length :=
  runCont_length_eq (by simp [contInit]) h

/-- C9 witness: a concrete two-tick run. -/
theorem C9_parallel_lengths_witness :
    runCont [some 5, some 7] contInit = Except.ok ⟨2, [(5 : ℚ), 7], [1, 2]⟩
    ∧ (ContState.mk 2 [(5 : ℚ), 7] [1, 2]).distances.length
        = (ContState.mk 2 [(5 : ℚ), 7] [1, 2]).indices.length :=
  ⟨rfl, C9_parallel_lengths [some 5, some 7] _ rfl⟩

/-- C10: in the collected round data a timeout and a non-positive numeric
sample are indistinguishable: both produce the entry `(i, 0.0)`, and two
rounds whose samples differ only in this way are equal — the data handed to
export records no validity flag. -/
theorem C10_timeout_indistinguishable (i : ℕ) (r : ℚ) (hr : r ≤ 0) :
    ((i, dist_val (some r)) : ℕ × ℚ) = (i, dist_val none)
    ∧ dist_val none = 0
    ∧ gather_readings (fun _ => some r) 1 = gather_readings (fun _ => none) 1 := by
  have h0 : dist_val (some r) = 0 := by
    simp [dist_val, classify, max_eq_right hr]
  refine ⟨by rw [h0]; rfl, rfl, ?_⟩
  simp [gather_readings, h0]
  rfl

/-- C10 witness: the collapse at index 7 with raw sample `-3`. -/
theorem C10_timeout_indistinguishable_witness :
    ((-3 : ℚ) ≤ 0)
    ∧ (((7, dist_val (some (-3))) : ℕ × ℚ) = (7, dist_val none)
       ∧ dist_val none = 0
       ∧ gather_readings (fun _ => some (-3 : ℚ)) 1 = gather_readings (fun _ => none) 1) :=
  ⟨by norm_num, C10_timeout_indistinguishable 7 (-3) (by norm_num)⟩

end Ultrasonic
